import Mathlib

/-
Verification of the resume-analysis pipeline:
  - the structured-output extractor of resume_analyzer.py
    (ResumeAnalyzer._parse_output_to_analysis_result),
  - the batch orchestrator of router.py (Router.analyze_jd and
    Router._calculate_statistics),
  - the document cache loader of file_cache_manager.py
    (FileCacheManager._load_jd_files, _load_resume_files, refresh_cache).

Strings are modelled as Lean String / List Char.  Python regular-expression
searches over the fixed patterns of the source are hand-compiled to
recursive matchers with the same leftmost-match, greedy-with-backtracking
semantics.  Case folding and whitespace are modelled over ASCII, which
covers every character the fixed patterns and indicator phrases mention.
-/

namespace RA

/-! ### Basic character and substring utilities -/

/-- ASCII whitespace, the characters Python treats as whitespace in the
fixed regex patterns of the source. -/
def isWsChar (c : Char) : Bool :=
  c == ' ' || c == '\t' || c == '\n' || c == '\r' || c == '\x0b' || c == '\x0c'

/-- Python str.lower over the character list of a string (ASCII case
folding, which covers the fixed indicator phrases). -/
def strLower (s : String) : String := String.mk (s.data.map Char.toLower)

/-- Substring containment on character lists; models the Python operator
`needle in hay`. -/
def containsSub : List Char → List Char → Bool
  | [], needle => needle.isEmpty
  | c :: t, needle => needle.isPrefixOf (c :: t) || containsSub t needle

/-- Index of the first occurrence of a substring; models Python
`hay.find(needle)` (with `none` for -1). -/
def findSub : List Char → List Char → Option Nat
  | [], needle => if needle.isEmpty then some 0 else none
  | c :: t, needle =>
    if needle.isPrefixOf (c :: t) then some 0
    else (findSub t needle).map (· + 1)

/-! ### Match determination (resume_analyzer.py lines 205-233) -/

/-- The fixed positive indicator phrases of
`_parse_output_to_analysis_result`. -/
def positiveIndicators : List String :=
  ["strong candidate", "good match", "well qualified", "excellent fit",
   "recommended", "suitable", "qualified", "matches", "aligns well"]

/-- The fixed negative indicator phrases of
`_parse_output_to_analysis_result`. -/
def negativeIndicators : List String :=
  ["not a match", "does not match", "lacks", "gap", "missing",
   "not suitable", "not qualified", "weak candidate", "does not align"]

/-- Number of indicator phrases of a set that occur in the (lowered) text;
models `sum(1 for indicator in indicators if indicator in conclusion_lower)`. -/
def countPresent (cl : List Char) (inds : List String) : Nat :=
  (inds.filter (fun i => containsSub cl i.data)).length

/-- The match_bool computation of `_parse_output_to_analysis_result`:
indicator voting over the lowered text, with the conclusion-section
override. -/
def determineMatch (s : String) : Bool :=
  let cl := (strLower s).data
  let positive_count := countPresent cl positiveIndicators
  let negative_count := countPresent cl negativeIndicators
  if negative_count < positive_count then true
  else if containsSub cl ("conclusion".data) then
    match findSub cl ("conclusion".data) with
    | some conclusion_start =>
      positiveIndicators.any (fun i => containsSub (cl.drop conclusion_start) i.data)
    | none => false
  else false

/-- Match determination as worded by the specification: count the
indicators of each set present in the text case-insensitively; positive
majority wins; otherwise, if the text has a conclusion marker, match holds
iff a positive indicator occurs between the marker and the end; otherwise
no match. -/
def specIsMatch (s : String) : Bool :=
  let cl := (strLower s).data
  if countPresent cl negativeIndicators < countPresent cl positiveIndicators then true
  else if containsSub cl ("conclusion".data) then
    positiveIndicators.any
      (fun i => containsSub (cl.drop ((findSub cl ("conclusion".data)).getD cl.length)) i.data)
  else false

/-! ### Name extraction (resume_analyzer.py lines 170-203)

The five regex rules of the cascade, hand-compiled.  Characters admissible
in a name, per the character class of the source patterns. -/

def nameClass (c : Char) : Bool :=
  c.isAlpha || isWsChar c || c == '-' || c == '\''

/-- Longest run of non-newline characters, the greedy match of the
group in pattern 1. -/
def takeLine (l : List Char) : List Char := l.takeWhile (fun c => !(c == '\n'))

/-- Tail matcher of pattern 1 after the literal label: greedy whitespace
followed by a nonempty group of non-newline characters, with
backtracking. -/
def p1Tail : List Char → Option (List Char)
  | [] => none
  | c :: t =>
    if isWsChar c then
      match p1Tail t with
      | some g => some g
      | none => if c == '\n' then none else some (takeLine (c :: t))
    else some (takeLine (c :: t))

def p1Label : List Char := "**Candidate Name:**".data

def p1At (l : List Char) : Option (List Char) :=
  if p1Label.isPrefixOf l then p1Tail (l.drop p1Label.length) else none

/-- Leftmost search of a positional matcher, the semantics of
Python re.search. -/
def searchAt (f : List Char → Option (List Char)) : List Char → Option (List Char)
  | [] => f []
  | c :: t => (f (c :: t)).orElse (fun _ => searchAt f t)

/-- Pattern 1 search. -/
def p1Search (l : List Char) : Option (List Char) := searchAt p1At l

/-- Positional matcher of pattern 2: the literal, a capital letter, a
maximal run over the name character class, closed by a period. -/
def p2At (l : List Char) : Option (List Char) :=
  if "is ".data.isPrefixOf l then
    match l.drop 3 with
    | c :: t =>
      if c.isUpper then
        let run := t.takeWhile nameClass
        if run.isEmpty then none
        else if (t.drop run.length).head? = some '.' then some (c :: run)
        else none
      else none
    | [] => none
  else none

/-- Pattern 2 search. -/
def p2Search (l : List Char) : Option (List Char) := searchAt p2At l

/-- Length of the maximal whitespace run at the head of the list. -/
def maxWs (l : List Char) : Nat := (l.takeWhile isWsChar).length

/-- Tail of patterns 3 and 4 after the literal "Name": greedy whitespace
whose last character must be a newline, then a capital letter and a
nonempty run over the name character class. -/
def afterNameGroup (l : List Char) : Option (List Char) :=
  let w := l.takeWhile isWsChar
  let rest := l.drop w.length
  if w.getLast? = some '\n' then
    match rest with
    | c :: t =>
      if c.isUpper then
        let run := t.takeWhile nameClass
        if run.isEmpty then none else some (c :: run)
      else none
    | [] => none
  else none

def contAfterName (l : List Char) : Option (List Char) :=
  if "Name".data.isPrefixOf l then afterNameGroup (l.drop 4) else none

/-- The optional person part of pattern 3, with the backtracking order of
the regex engine. -/
def tryPersonThen (l : List Char) : Option (List Char) :=
  (if "Person's ".data.isPrefixOf l then contAfterName (l.drop 9) else none).orElse
    (fun _ =>
      (if "Persons ".data.isPrefixOf l then contAfterName (l.drop 8) else none).orElse
        (fun _ => contAfterName l))

def p3At (l : List Char) : Option (List Char) :=
  if "a:".data.isPrefixOf l then
    let r := l.drop 2
    let r2 := r.drop (maxWs r)
    if "Extracted ".data.isPrefixOf r2 then tryPersonThen (r2.drop 10) else none
  else none

def p3Search (l : List Char) : Option (List Char) := searchAt p3At l

def p4At (l : List Char) : Option (List Char) :=
  if "a:".data.isPrefixOf l then
    let r := l.drop 2
    let r2 := r.drop (maxWs r)
    (if "Person's ".data.isPrefixOf r2 then contAfterName (r2.drop 9) else none).orElse
      (fun _ => if "Persons ".data.isPrefixOf r2 then contAfterName (r2.drop 8) else none)
  else none

def p4Search (l : List Char) : Option (List Char) := searchAt p4At l

/-- Python str.splitlines restricted to the line boundaries
newline, carriage return and their pair. -/
def splitLinesRec : List Char → List Char → List (List Char)
  | [], cur => if cur.isEmpty then [] else [cur.reverse]
  | '\r' :: '\n' :: t, cur => cur.reverse :: splitLinesRec t []
  | '\r' :: t, cur => cur.reverse :: splitLinesRec t []
  | '\n' :: t, cur => cur.reverse :: splitLinesRec t []
  | c :: t, cur => splitLinesRec t (c :: cur)

/-- Python str.strip over a character list. -/
def lineStrip (l : List Char) : List Char :=
  ((l.dropWhile isWsChar).reverse.dropWhile isWsChar).reverse

/-- Python str.strip over a string. -/
def strTrim (s : String) : String := String.mk (lineStrip s.data)

/-- Header alternatives of the pattern-5 line scan after the optional
"Extracted " part. -/
def p5HeaderAfter (r : List Char) : Bool :=
  (if "Person's ".data.isPrefixOf r then "Name".data.isPrefixOf (r.drop 9) else false)
  || (if "Persons ".data.isPrefixOf r then "Name".data.isPrefixOf (r.drop 8) else false)
  || "Name".data.isPrefixOf r

/-- The pattern-5 header test over a stripped line. -/
def p5Header (l : List Char) : Bool :=
  if "a:".data.isPrefixOf l then
    let r := l.drop 2
    let r2 := r.drop (maxWs r)
    (if "Extracted ".data.isPrefixOf r2 then p5HeaderAfter (r2.drop 10) else false)
      || p5HeaderAfter r2
  else false

/-- A whole line that is name-shaped: a capital letter followed by at
least one character of the name class, nothing else. -/
def nameShaped (l : List Char) : Bool :=
  match l with
  | [] => false
  | c :: t => c.isUpper && !t.isEmpty && t.all nameClass

def unknownName : List Char := "Unknown".data

/-- The inner lookahead of pattern 5: the first of the next two lines that
is name-shaped after stripping. -/
def p5Pick (rest : List (List Char)) : List Char :=
  match rest with
  | [] => unknownName
  | l1 :: rest2 =>
    if nameShaped (lineStrip l1) then lineStrip l1
    else
      match rest2 with
      | [] => unknownName
      | l2 :: _ => if nameShaped (lineStrip l2) then lineStrip l2 else unknownName

/-- The pattern-5 line scan: find a header line, accept the first
name-shaped line among the following two; a literal "Unknown" pick keeps
the scan going, as in the source loop. -/
def p5Go : List (List Char) → List Char
  | [] => unknownName
  | line :: rest =>
    if p5Header (lineStrip line) then
      let cand := p5Pick rest
      if cand = unknownName then p5Go rest else cand
    else p5Go rest

/-- The name-extraction cascade of `_parse_output_to_analysis_result`:
five rules, first match wins, defaulting to "Unknown". -/
def extractName (s : String) : String :=
  match p1Search s.data with
  | some g => strTrim (String.mk g)
  | none =>
    match p2Search s.data with
    | some g => strTrim (String.mk g)
    | none =>
      match p3Search s.data with
      | some g => strTrim (String.mk g)
      | none =>
        match p4Search s.data with
        | some g => strTrim (String.mk g)
        | none => String.mk (p5Go (splitLinesRec s.data []))

/-! ### The extractor (resume_analyzer.py lines 159-251) -/

/-- The structured verdict record, pydantic model AnalysisResult of the
source; the field named match there is `matched` here (match is a Lean
keyword). -/
structure AnalysisResult where
  name : String
  matched : Bool
  summary : String
  deriving DecidableEq, Repr

/-- The except-branch of `_parse_output_to_analysis_result`: the default
verdict built when parsing raises. -/
def parseFallback (s : String) : AnalysisResult :=
  { name := "Unknown", matched := false,
    summary := "Error parsing analysis result: " ++ s.take 200 ++ "..." }

/-- The try-branch of `_parse_output_to_analysis_result`.  Every operation
of the branch is total, so in the embedding it always returns a value. -/
def parseTry (s : String) : Option AnalysisResult :=
  some { name := extractName s, matched := determineMatch s, summary := strTrim s }

/-- `_parse_output_to_analysis_result`: the try-branch result, or the
fallback verdict when the attempt yields nothing. -/
def parseOutputToAnalysisResult (s : String) : AnalysisResult :=
  match parseTry s with
  | some r => r
  | none => parseFallback s

/-! ### The batch orchestrator (router.py) -/

/-- Status of one per-candidate record; the source stores the strings
"SUCCESS" and "ERROR". -/
inductive RecordStatus where
  | success
  | error
  deriving DecidableEq, Repr

/-- The per-candidate result dict of Router.analyze_jd. -/
structure AnalysisRecord where
  resume_name : String
  candidate_name : String
  matched : Bool
  summary : String
  status : RecordStatus
  deriving DecidableEq, Repr

/-- The statistics dict of Router._calculate_statistics; match_rate is the
exact rational value of the Python float expression. -/
structure Stats where
  total_analyzed : Nat
  successful_matches : Nat
  total_successful : Nat
  total_errors : Nat
  match_rate : ℚ
  deriving DecidableEq, Repr

/-- The final result dict of Router.analyze_jd; the presentation-only
table entry of the source dict is not modelled. -/
structure BatchResult where
  jd_name : String
  results : List AnalysisRecord
  statistics : Stats
  deriving DecidableEq, Repr

/-- The two batch-terminating failures of Router.analyze_jd (raised as
ValueError in the source, named per the specification taxonomy). -/
inductive BatchError where
  | notFound (jdName : String) (available : List String)
  | emptyCandidates
  deriving DecidableEq, Repr

/-- The two mappings of FileCacheManager, as insertion-ordered association
lists (Python dicts preserve insertion order). -/
structure Cache where
  jds : List (String × String)
  resumes : List (String × String)
  deriving DecidableEq, Repr

/-- Lookup in an association list; models dict.get. -/
def lookupStr : List (String × String) → String → Option String
  | [], _ => none
  | (k, v) :: t, n => if k = n then some v else lookupStr t n

def getJd (c : Cache) (n : String) : Option String := lookupStr c.jds n

def getResume (c : Cache) (n : String) : Option String := lookupStr c.resumes n

/-- One element of the generator output of Router.analyze_jd: a progress
pair (records so far, current resume name) or the final pair
(batch result, none). -/
abbrev YieldItem := (Sum (List AnalysisRecord) BatchResult) × Option String

/-- The ERROR record shape of Router.analyze_jd. -/
def errorRecord (resumeName msg : String) : AnalysisRecord :=
  { resume_name := resumeName, candidate_name := "Unknown", matched := false,
    summary := msg, status := RecordStatus.error }

/-- ResumeAnalyzer.analyze_resume: a model call (the oracle llm, which
may fail with an exception message) followed by the extractor. -/
def analyzeResume (llm : String → String → Except String String)
    (jd res : String) : Except String AnalysisResult :=
  (llm jd res).map parseOutputToAnalysisResult

/-- The per-candidate body of the loop of Router.analyze_jd. -/
def recordFor (llm : String → String → Except String String)
    (jdContent : String) (c : Cache) (resumeName : String) : AnalysisRecord :=
  let content := (getResume c resumeName).getD ""
  if content = "" then
    errorRecord resumeName ("Could not retrieve content for " ++ resumeName)
  else
    match analyzeResume llm jdContent content with
    | Except.ok r =>
      { resume_name := resumeName, candidate_name := r.name, matched := r.matched,
        summary := r.summary, status := RecordStatus.success }
    | Except.error e =>
      errorRecord resumeName ("Error analyzing " ++ resumeName ++ ": " ++ e)

/-- The SUCCESS record shape of Router.analyze_jd: the extractor verdict
for the raw model text, wrapped with the resume name. -/
def successRecord (resumeName raw : String) : AnalysisRecord :=
  { resume_name := resumeName,
    candidate_name := (parseOutputToAnalysisResult raw).name,
    matched := (parseOutputToAnalysisResult raw).matched,
    summary := (parseOutputToAnalysisResult raw).summary,
    status := RecordStatus.success }

/-- The cache of the specification failure-isolation scenario: one job
description and the candidates alice and bob. -/
def twoCandidateCache (ja ca cb : String) : Cache :=
  { jds := [("backend_eng", ja)], resumes := [("alice", ca), ("bob", cb)] }

/-- The loop of Router.analyze_jd: per candidate, append a record and
yield the accumulated list with the candidate name; also returns the final
accumulated record list. -/
def loopRun (llm : String → String → Except String String)
    (jdContent : String) (c : Cache) :
    List String → List AnalysisRecord → List YieldItem × List AnalysisRecord
  | [], acc => ([], acc)
  | n :: rest, acc =>
    let acc2 := acc ++ [recordFor llm jdContent c n]
    let pr := loopRun llm jdContent c rest acc2
    ((Sum.inl acc2, some n) :: pr.1, pr.2)

/-- Router._calculate_statistics. -/
def calcStatistics (rs : List AnalysisRecord) : Stats :=
  let total_analyzed := rs.length
  let successful_matches :=
    (rs.filter (fun r => r.matched && decide (r.status = RecordStatus.success))).length
  let total_successful :=
    (rs.filter (fun r => decide (r.status = RecordStatus.success))).length
  let total_errors :=
    (rs.filter (fun r => decide (r.status = RecordStatus.error))).length
  { total_analyzed := total_analyzed, successful_matches := successful_matches,
    total_successful := total_successful, total_errors := total_errors,
    match_rate :=
      if 0 < total_successful then
        (successful_matches : ℚ) / (total_successful : ℚ) * 100
      else 0 }

/-- Insertion sort on strings; models sorted() in Router.get_available_jds. -/
def insertSorted (x : String) : List String → List String
  | [] => [x]
  | y :: t => if x ≤ y then x :: y :: t else y :: insertSorted x t

def sortStrings : List String → List String
  | [] => []
  | x :: t => insertSorted x (sortStrings t)

/-- Router.analyze_jd: validate, then run the loop over the snapshot of
resume names and append the final event.  The whole generator output is
returned as a list; the Python falsy test on jd_content (absent or empty)
is the getD-emptiness test. -/
def analyzeJd (c : Cache) (jdName : String)
    (llm : String → String → Except String String) :
    Except BatchError (List YieldItem) :=
  if (getJd c jdName).getD "" = "" then
    Except.error (BatchError.notFound jdName (sortStrings (c.jds.map Prod.fst)))
  else
    let names := c.resumes.map Prod.fst
    if names.isEmpty then Except.error BatchError.emptyCandidates
    else
      let jdContent := (getJd c jdName).getD ""
      let pr := loopRun llm jdContent c names []
      Except.ok (pr.1 ++
        [(Sum.inr { jd_name := jdName, results := pr.2,
                    statistics := calcStatistics pr.2 }, none)])

/-! ### The document cache loader (file_cache_manager.py) -/

/-- A source folder: the .pdf files (stem, concatenated extractable text)
and the .txt files (stem, raw file text), in scan order. -/
structure Folder where
  pdfs : List (String × String)
  txts : List (String × String)
  deriving DecidableEq, Repr

/-- Python dict assignment on an association list: overwrite in place when
the key exists, else append. -/
def dictInsert (d : List (String × String)) (k v : String) :
    List (String × String) :=
  if d.any (fun p => p.1 == k) then
    d.map (fun p => if p.1 == k then (k, v) else p)
  else d ++ [(k, v)]

/-- One file of a load loop: strip the text (both loaders strip before the
truthiness test) and cache it only when non-empty. -/
def cacheStep (d : List (String × String)) (p : String × String) :
    List (String × String) :=
  if strTrim p.2 = "" then d else dictInsert d p.1 (strTrim p.2)

/-- FileCacheManager._load_jd_files / _load_resume_files: PDF files first,
then text files, each inserted only when its stripped content is
non-empty. -/
def loadFiles (f : Folder) : List (String × String) :=
  f.txts.foldl cacheStep (f.pdfs.foldl cacheStep [])

/-- Cache construction: load both categories. -/
def initCache (jdF resF : Folder) : Cache :=
  { jds := loadFiles jdF, resumes := loadFiles resF }

/-- FileCacheManager.refresh_cache: clear both mappings and reload. -/
def refreshCache (_old : Cache) (jdF resF : Folder) : Cache :=
  { jds := loadFiles jdF, resumes := loadFiles resF }

/-! ### Helper lemmas -/

theorem containsSub_findSub (hay needle : List Char)
    (h : containsSub hay needle = true) : ∃ k, findSub hay needle = some k := by
  induction hay with
  | nil =>
    refine ⟨0, ?_⟩
    simp only [containsSub] at h
    simp [findSub, h]
  | cons c t ih =>
    cases hp : needle.isPrefixOf (c :: t) with
    | true => exact ⟨0, by simp [findSub, hp]⟩
    | false =>
      simp only [containsSub, hp, Bool.false_or] at h
      obtain ⟨k, hk⟩ := ih h
      exact ⟨k + 1, by simp [findSub, hp, hk]⟩

theorem containsSub_iff_occurs (hay needle : List Char) :
    containsSub hay needle = true ↔ needle <:+: hay := by
  induction hay with
  | nil => simp [containsSub, List.isEmpty_iff, List.infix_nil]
  | cons c t ih =>
    simp [containsSub, List.infix_cons_iff, List.isPrefixOf_iff_prefix, ih]

theorem countPresent_pos (cl : List Char) (inds : List String) (x : String)
    (hx : x ∈ inds) (hc : containsSub cl x.data = true) :
    1 ≤ countPresent cl inds := by
  have hmem : x ∈ inds.filter (fun i => containsSub cl i.data) :=
    List.mem_filter.mpr ⟨hx, hc⟩
  exact List.length_pos_of_mem hmem

theorem recordFor_resume_name (llm : String → String → Except String String)
    (jdContent : String) (c : Cache) (n : String) :
    (recordFor llm jdContent c n).resume_name = n := by
  unfold recordFor
  simp only [errorRecord]
  split
  · rfl
  · split <;> rfl

theorem loopRun_eq (llm : String → String → Except String String)
    (jdContent : String) (c : Cache) (names : List String) :
    ∀ acc : List AnalysisRecord,
      loopRun llm jdContent c names acc =
        ((List.range names.length).map (fun i =>
            (Sum.inl (acc ++ ((names.take (i+1)).map (recordFor llm jdContent c))),
             some (names.getD i ""))),
         acc ++ names.map (recordFor llm jdContent c)) := by
  induction names with
  | nil => intro acc; simp [loopRun]
  | cons n rest ih =>
    intro acc
    simp [loopRun, ih, List.length_cons, List.range_succ_eq_map,
      List.map_map, List.take_succ_cons, List.getD_cons_zero,
      List.getD_cons_succ, Function.comp, List.append_assoc]

theorem status_partition (rs : List AnalysisRecord) :
    (rs.filter (fun r => decide (r.status = RecordStatus.success))).length +
      (rs.filter (fun r => decide (r.status = RecordStatus.error))).length
      = rs.length := by
  induction rs with
  | nil => rfl
  | cons r t ih =>
    cases h : r.status <;> simp [List.filter_cons, h] <;> omega

theorem lookup_update_ne (d : List (String × String)) (k v n : String)
    (hne : n ≠ k) :
    lookupStr (d.map (fun p => if p.1 == k then (k, v) else p)) n = lookupStr d n := by
  induction d with
  | nil => rfl
  | cons hd t ih =>
    simp only [List.map_cons]
    by_cases hk : (hd.1 == k) = true
    · rw [if_pos hk]
      have hd1 : hd.1 ≠ n := by
        have : hd.1 = k := by simpa using hk
        rw [this]; exact Ne.symm hne
      simp only [lookupStr]
      rw [if_neg (Ne.symm hne), if_neg hd1, ih]
    · rw [if_neg hk]
      simp only [lookupStr]
      rw [ih]

theorem lookup_append_ne (d : List (String × String)) (k v n : String)
    (hne : n ≠ k) :
    lookupStr (d ++ [(k, v)]) n = lookupStr d n := by
  induction d with
  | nil => simp [lookupStr, Ne.symm hne]
  | cons hd t ih =>
    by_cases hh : hd.1 = n <;> simp [lookupStr, hh, ih]

theorem lookup_map_update_self (d : List (String × String)) (k v : String)
    (h : d.any (fun p => p.1 == k) = true) :
    lookupStr (d.map (fun p => if p.1 == k then (k, v) else p)) k = some v := by
  induction d with
  | nil => simp at h
  | cons hd t ih =>
    simp only [List.map_cons]
    by_cases hk : (hd.1 == k) = true
    · rw [if_pos hk]
      simp [lookupStr]
    · rw [if_neg hk]
      have hk' : hd.1 ≠ k := by simpa using hk
      simp only [lookupStr]
      rw [if_neg hk']
      apply ih
      have hfalse : (hd.1 == k) = false := Bool.of_not_eq_true hk
      simpa [List.any_cons, hfalse] using h

theorem lookup_append_self (d : List (String × String)) (k v : String)
    (h : d.any (fun p => p.1 == k) = false) :
    lookupStr (d ++ [(k, v)]) k = some v := by
  induction d with
  | nil => simp [lookupStr]
  | cons hd t ih =>
    simp only [List.any_cons, Bool.or_eq_false_iff] at h
    have hh : hd.1 ≠ k := by simpa using h.1
    simp [lookupStr, hh, ih h.2]

theorem lookupStr_dictInsert_self (d : List (String × String)) (k v : String) :
    lookupStr (dictInsert d k v) k = some v := by
  unfold dictInsert
  split
  · exact lookup_map_update_self d k v (by assumption)
  · exact lookup_append_self d k v (Bool.of_not_eq_true (by assumption))

theorem lookupStr_dictInsert_ne (d : List (String × String)) (k v n : String)
    (hne : n ≠ k) :
    lookupStr (dictInsert d k v) n = lookupStr d n := by
  unfold dictInsert
  split
  · exact lookup_update_ne d k v n hne
  · exact lookup_append_ne d k v n hne

theorem lookup_foldl_skip (l : List (String × String)) (n : String)
    (h : ∀ p ∈ l, p.1 = n → strTrim p.2 = "") :
    ∀ d, lookupStr (l.foldl cacheStep d) n = lookupStr d n := by
  induction l with
  | nil => intro d; rfl
  | cons p t ih =>
    intro d
    have hrest : ∀ q ∈ t, q.1 = n → strTrim q.2 = "" :=
      fun q hq => h q (List.mem_cons_of_mem p hq)
    simp only [List.foldl_cons]
    rw [ih hrest]
    unfold cacheStep
    split
    · rfl
    · refine lookupStr_dictInsert_ne d p.1 (strTrim p.2) n ?_
      intro hn
      exact absurd (h p (List.mem_cons_self p t) hn.symm) (by assumption)

theorem lookup_foldl_mem (l : List (String × String)) (n vt : String)
    (hm : (n, vt) ∈ l) (hvt : strTrim vt ≠ "")
    (hnd : (l.map Prod.fst).Nodup) :
    ∀ d, lookupStr (l.foldl cacheStep d) n = some (strTrim vt) := by
  induction l with
  | nil => cases hm
  | cons p t ih =>
    intro d
    simp only [List.map_cons, List.nodup_cons] at hnd
    rcases List.mem_cons.mp hm with hp | hp
    · subst hp
      simp only [List.foldl_cons]
      have hskip : ∀ q ∈ t, q.1 = n → strTrim q.2 = "" := by
        intro q hq hqn
        exact absurd (List.mem_map.mpr ⟨q, hq, hqn⟩) hnd.1
      rw [lookup_foldl_skip t n hskip]
      unfold cacheStep
      rw [if_neg hvt]
      exact lookupStr_dictInsert_self d n (strTrim vt)
    · simp only [List.foldl_cons]
      exact ih hp hnd.2 (cacheStep d p)

theorem all_nonempty_dictInsert (d : List (String × String)) (k v : String)
    (hd : d.all (fun p => !(p.2 == "")) = true) (hv : v ≠ "") :
    (dictInsert d k v).all (fun p => !(p.2 == "")) = true := by
  simp only [List.all_eq_true] at hd ⊢
  unfold dictInsert
  split
  · intro p hp
    obtain ⟨q, hq, rfl⟩ := List.mem_map.mp hp
    split
    · simpa using hv
    · exact hd q hq
  · intro p hp
    rcases List.mem_append.mp hp with hq | hq
    · exact hd p hq
    · simp only [List.mem_singleton] at hq
      subst hq
      simpa using hv

theorem all_nonempty_foldl (l : List (String × String)) :
    ∀ d, d.all (fun p => !(p.2 == "")) = true →
      (l.foldl cacheStep d).all (fun p => !(p.2 == "")) = true := by
  induction l with
  | nil => intro d hd; exact hd
  | cons p t ih =>
    intro d hd
    simp only [List.foldl_cons]
    refine ih _ ?_
    unfold cacheStep
    split
    · exact hd
    · exact all_nonempty_dictInsert d p.1 (strTrim p.2) hd (by assumption)

/-! ### Claim theorems -/

/-- C1: the structured-output extractor is total: for every input string it
returns a well-formed verdict (the parsed one, or the fallback), and the
fallback built on internal failure has candidate name "Unknown", no match,
and a summary embedding the 200-character prefix of the raw text with an
error marker. -/
theorem extractor_total_with_fallback (s : String) :
    (parseOutputToAnalysisResult s
        = { name := extractName s, matched := determineMatch s, summary := strTrim s } ∨
      parseOutputToAnalysisResult s = parseFallback s) ∧
    (parseFallback s).name = "Unknown" ∧
    (parseFallback s).matched = false ∧
    (parseFallback s).summary = "Error parsing analysis result: " ++ s.take 200 ++ "..." :=
  ⟨Or.inl rfl, rfl, rfl, rfl⟩

/-- C2: the extractor decides is_match exactly by the indicator-voting rule
of the specification (positive majority, else the conclusion-section
override, else false), and in the non-error case the summary is the full
raw text trimmed. -/
theorem match_determination_follows_spec (s : String) :
    (parseOutputToAnalysisResult s).matched = specIsMatch s ∧
    (parseOutputToAnalysisResult s).summary = strTrim s := by
  refine ⟨?_, rfl⟩
  show determineMatch s = specIsMatch s
  simp only [determineMatch, specIsMatch]
  by_cases hlt :
      countPresent (strLower s).data negativeIndicators <
        countPresent (strLower s).data positiveIndicators
  · simp [hlt]
  · simp only [if_neg hlt]
    cases hc : containsSub (strLower s).data ("conclusion".data) with
    | false => simp [hc]
    | true =>
      obtain ⟨k, hk⟩ := containsSub_findSub _ _ hc
      simp [hc, hk]

/-- C7: for every record list, total_successful + total_errors equals
total_analyzed, and match_rate is successful_matches / total_successful *
100 when total_successful is positive and exactly zero when
total_successful is zero. -/
theorem statistics_invariant (rs : List AnalysisRecord) :
    (calcStatistics rs).total_successful + (calcStatistics rs).total_errors
        = (calcStatistics rs).total_analyzed ∧
    ((0 < (calcStatistics rs).total_successful ∧
        (calcStatistics rs).match_rate =
          ((calcStatistics rs).successful_matches : ℚ) /
            ((calcStatistics rs).total_successful : ℚ) * 100) ∨
      ((calcStatistics rs).total_successful = 0 ∧
        (calcStatistics rs).match_rate = 0)) := by
  constructor
  · simpa [calcStatistics] using status_partition rs
  · simp only [calcStatistics]
    by_cases h :
        0 < (rs.filter (fun r => decide (r.status = RecordStatus.success))).length
    · exact Or.inl ⟨h, by rw [if_pos h]⟩
    · exact Or.inr ⟨Nat.eq_zero_of_not_pos h, by rw [if_neg h]⟩

/-- C8: after initial load, every cached entry of both categories has
non-empty text (empty documents are dropped, never cached as empty
strings), and a refresh reproduces exactly the initial-load result, so the
invariant holds after every refresh as well. -/
theorem cache_nonempty_invariant (jdF resF : Folder) (old : Cache) :
    ((initCache jdF resF).jds.all (fun p => !(p.2 == "")) = true) ∧
    ((initCache jdF resF).resumes.all (fun p => !(p.2 == "")) = true) ∧
    refreshCache old jdF resF = initCache jdF resF := by
  refine ⟨?_, ?_, rfl⟩
  · exact all_nonempty_foldl jdF.txts _ (all_nonempty_foldl jdF.pdfs [] rfl)
  · exact all_nonempty_foldl resF.txts _ (all_nonempty_foldl resF.pdfs [] rfl)

/-- C5: when both the labeled-field rule (pattern 1) and the copular
sentence rule (pattern 2) match, with different names, the extractor
returns the labeled-field name: rule 1 strictly precedes rule 2. -/
theorem labeled_name_takes_priority (s : String) (g h : List Char)
    (h1 : p1Search s.data = some g) (h2 : p2Search s.data = some h)
    (hne : strTrim (String.mk g) ≠ strTrim (String.mk h)) :
    extractName s = strTrim (String.mk g) ∧
    (parseOutputToAnalysisResult s).name = strTrim (String.mk g) := by
  have hx : extractName s = strTrim (String.mk g) := by
    unfold extractName
    rw [h1]
  exact ⟨hx, hx⟩

theorem labeled_name_takes_priority_witness :
    p1Search ("**Candidate Name:** John Smith\nThe winner is Mary Jones.").data
        = some ("John Smith").data ∧
    p2Search ("**Candidate Name:** John Smith\nThe winner is Mary Jones.").data
        = some ("Mary Jones").data ∧
    extractName "**Candidate Name:** John Smith\nThe winner is Mary Jones."
        = "John Smith" := by
  have h1 : p1Search ("**Candidate Name:** John Smith\nThe winner is Mary Jones.").data
      = some ("John Smith").data := by decide
  have h2 : p2Search ("**Candidate Name:** John Smith\nThe winner is Mary Jones.").data
      = some ("Mary Jones").data := by decide
  refine ⟨h1, h2, ?_⟩
  rw [(labeled_name_takes_priority _ _ _ h1 h2 (by decide)).1]
  decide

/-- C9: every text containing the phrase "not qualified" registers at
least one positive indicator (its substring "qualified") and at least one
negative indicator; if those are the only registered indicators and the
text has no conclusion marker, the verdict is false through the 1-1 tie of
the counts. -/
theorem not_qualified_registers_both (s : String)
    (h1 : containsSub (strLower s).data ("not qualified".data) = true) :
    (1 ≤ countPresent (strLower s).data positiveIndicators ∧
     1 ≤ countPresent (strLower s).data negativeIndicators) ∧
    (countPresent (strLower s).data positiveIndicators = 1 →
     countPresent (strLower s).data negativeIndicators = 1 →
     containsSub (strLower s).data ("conclusion".data) = false →
     determineMatch s = false ∧ (parseOutputToAnalysisResult s).matched = false) := by
  constructor
  · constructor
    · have hinf : ("not qualified".data) <:+: (strLower s).data :=
        (containsSub_iff_occurs _ _).mp h1
      have hq : ("qualified".data) <:+: ("not qualified".data) := by decide
      exact countPresent_pos _ _ "qualified" (by decide)
        ((containsSub_iff_occurs _ _).mpr (hq.trans hinf))
    · exact countPresent_pos _ _ "not qualified" (by decide) h1
  · intro hp hn hc
    have hm : determineMatch s = false := by
      simp [determineMatch, hp, hn, hc]
    exact ⟨hm, hm⟩

theorem not_qualified_registers_both_witness :
    containsSub (strLower "The candidate is not qualified").data
        ("not qualified".data) = true ∧
    countPresent (strLower "The candidate is not qualified").data
        positiveIndicators = 1 ∧
    countPresent (strLower "The candidate is not qualified").data
        negativeIndicators = 1 ∧
    containsSub (strLower "The candidate is not qualified").data
        ("conclusion".data) = false ∧
    determineMatch "The candidate is not qualified" = false := by
  have h1 : containsSub (strLower "The candidate is not qualified").data
      ("not qualified".data) = true := by decide
  have hp : countPresent (strLower "The candidate is not qualified").data
      positiveIndicators = 1 := by decide
  have hn : countPresent (strLower "The candidate is not qualified").data
      negativeIndicators = 1 := by decide
  have hc : containsSub (strLower "The candidate is not qualified").data
      ("conclusion".data) = false := by decide
  exact ⟨h1, hp, hn, hc,
    ((not_qualified_registers_both _ h1).2 hp hn hc).1⟩

/-- C3: for a job description present in the cache (with the non-empty
text the cache invariant guarantees) and a non-empty candidate set, the
batch yields, per candidate of the snapshot in snapshot order, a progress
event with the records so far and that candidate's name, and a final event
with name component none carrying the batch result (jd name, one record
per candidate, statistics); the records carry the snapshot names in
order. -/
theorem run_batch_one_record_per_candidate
    (c : Cache) (jd jdc : String) (llm : String → String → Except String String)
    (hjd : getJd c jd = some jdc) (hne : jdc ≠ "") (hres : c.resumes ≠ []) :
    analyzeJd c jd llm =
      Except.ok
        (((List.range c.resumes.length).map (fun i =>
            (Sum.inl (((c.resumes.map Prod.fst).take (i+1)).map (recordFor llm jdc c)),
             some ((c.resumes.map Prod.fst).getD i ""))))
          ++ [(Sum.inr
                { jd_name := jd,
                  results := (c.resumes.map Prod.fst).map (recordFor llm jdc c),
                  statistics :=
                    calcStatistics ((c.resumes.map Prod.fst).map (recordFor llm jdc c)) },
               none)]) ∧
    ((c.resumes.map Prod.fst).map (recordFor llm jdc c)).map
        (fun r => r.resume_name) = c.resumes.map Prod.fst := by
  have hgd : (getJd c jd).getD "" = jdc := by rw [hjd]; rfl
  constructor
  · have hnames : (c.resumes.map Prod.fst).isEmpty = false := by
      cases hcr : c.resumes with
      | nil => exact absurd hcr hres
      | cons a t => rfl
    simp only [analyzeJd, hgd, if_neg hne, hnames, Bool.false_eq_true, if_false,
      loopRun_eq, List.nil_append, List.length_map]
  · rw [List.map_map]
    have hcomp : ((fun r => r.resume_name) ∘ recordFor llm jdc c) = id :=
      funext fun n => recordFor_resume_name llm jdc c n
    rw [hcomp, List.map_id]

theorem run_batch_one_record_per_candidate_witness :
    analyzeJd { jds := [("jd1", "Needs Python")], resumes := [("r1", "resume one")] }
        "jd1" (fun _ _ => Except.ok "good match")
      = Except.ok
          [(Sum.inl [{ resume_name := "r1", candidate_name := "Unknown",
                       matched := true, summary := "good match",
                       status := RecordStatus.success }], some "r1"),
           (Sum.inr { jd_name := "jd1",
                      results := [{ resume_name := "r1", candidate_name := "Unknown",
                                    matched := true, summary := "good match",
                                    status := RecordStatus.success }],
                      statistics :=
                        calcStatistics
                          [{ resume_name := "r1", candidate_name := "Unknown",
                             matched := true, summary := "good match",
                             status := RecordStatus.success }] }, none)] := by
  have h := (run_batch_one_record_per_candidate
    { jds := [("jd1", "Needs Python")], resumes := [("r1", "resume one")] }
    "jd1" "Needs Python" (fun _ _ => Except.ok "good match")
    rfl (by decide) (by decide)).1
  rw [h]
  rfl

/-- C6: the batch fails with NotFoundError (listing the available
job-description names) when the requested job description is absent, and
with EmptyCandidateSetError when the candidate set is empty; no other
failure terminates a batch, and both occur before any model call (the
error is independent of the model oracle). -/
theorem batch_validation_errors (c : Cache) (jd : String)
    (llm llm2 : String → String → Except String String) :
    ((getJd c jd).getD "" = "" →
      analyzeJd c jd llm
        = Except.error (BatchError.notFound jd (sortStrings (c.jds.map Prod.fst)))) ∧
    ((getJd c jd).getD "" ≠ "" → c.resumes = [] →
      analyzeJd c jd llm = Except.error BatchError.emptyCandidates) ∧
    ((getJd c jd).getD "" ≠ "" → c.resumes ≠ [] →
      ∀ err, analyzeJd c jd llm ≠ Except.error err) ∧
    (∀ err, analyzeJd c jd llm = Except.error err →
      analyzeJd c jd llm2 = Except.error err) := by
  refine ⟨?_, ?_, ?_, ?_⟩
  · intro h
    simp [analyzeJd, h]
  · intro h1 h2
    simp [analyzeJd, h1, h2]
  · intro h1 h2 err
    have hnames : (c.resumes.map Prod.fst).isEmpty = false := by
      cases hcr : c.resumes with
      | nil => exact absurd hcr h2
      | cons a t => rfl
    simp [analyzeJd, h1, hnames]
  · intro err h
    by_cases h1 : (getJd c jd).getD "" = ""
    · have e1 : analyzeJd c jd llm
          = Except.error (BatchError.notFound jd (sortStrings (c.jds.map Prod.fst))) := by
        simp [analyzeJd, h1]
      have e2 : analyzeJd c jd llm2
          = Except.error (BatchError.notFound jd (sortStrings (c.jds.map Prod.fst))) := by
        simp [analyzeJd, h1]
      rw [e2]
      rw [e1] at h
      exact h
    · by_cases h2 : c.resumes = []
      · have e1 : analyzeJd c jd llm = Except.error BatchError.emptyCandidates := by
          simp [analyzeJd, h1, h2]
        have e2 : analyzeJd c jd llm2 = Except.error BatchError.emptyCandidates := by
          simp [analyzeJd, h1, h2]
        rw [e2]
        rw [e1] at h
        exact h
      · have hnames : (c.resumes.map Prod.fst).isEmpty = false := by
          cases hcr : c.resumes with
          | nil => exact absurd hcr h2
          | cons a t => rfl
        simp [analyzeJd, h1, hnames] at h

theorem batch_validation_errors_witness :
    analyzeJd { jds := [("j", "jd text")], resumes := [] } "missing"
        (fun _ _ => Except.ok "good match")
      = Except.error (BatchError.notFound "missing" ["j"]) ∧
    analyzeJd { jds := [("j", "jd text")], resumes := [] } "j"
        (fun _ _ => Except.ok "good match")
      = Except.error BatchError.emptyCandidates ∧
    analyzeJd { jds := [("j", "jd text")], resumes := [("r", "resume text")] } "j"
        (fun _ _ => Except.ok "good match")
      ≠ Except.error BatchError.emptyCandidates ∧
    analyzeJd { jds := [("j", "jd text")], resumes := [] } "j"
        (fun _ _ => Except.error "boom")
      = Except.error BatchError.emptyCandidates := by
  have h2 := (batch_validation_errors { jds := [("j", "jd text")], resumes := [] } "j"
    (fun _ _ => Except.ok "good match")
    (fun _ _ => Except.error "boom")).2.1 (by decide) rfl
  refine ⟨?_, h2, ?_, ?_⟩
  · exact (batch_validation_errors { jds := [("j", "jd text")], resumes := [] } "missing"
      (fun _ _ => Except.ok "good match")
      (fun _ _ => Except.ok "good match")).1 rfl
  · exact (batch_validation_errors
      { jds := [("j", "jd text")], resumes := [("r", "resume text")] } "j"
      (fun _ _ => Except.ok "good match")
      (fun _ _ => Except.ok "good match")).2.2.1 (by decide) (by decide)
      BatchError.emptyCandidates
  · exact (batch_validation_errors { jds := [("j", "jd text")], resumes := [] } "j"
      (fun _ _ => Except.ok "good match")
      (fun _ _ => Except.error "boom")).2.2.2 BatchError.emptyCandidates h2

/-- C4: per-candidate failure isolation, in the scenario of the
specification: over candidates alice and bob, when the model call for
alice raises and the one for bob succeeds, the batch still yields one
record per candidate — an ERROR record for alice with candidate name
"Unknown", no match, and a human-readable error summary, then a SUCCESS
record for bob — and the statistics count 2 analyzed, 1 error, 1
success. -/
theorem per_candidate_failure_isolation
    (ja ca cb e raw : String) (llm : String → String → Except String String)
    (hja : ja ≠ "") (hca : ca ≠ "") (hcb : cb ≠ "")
    (ha : llm ja ca = Except.error e) (hb : llm ja cb = Except.ok raw) :
    analyzeJd (twoCandidateCache ja ca cb) "backend_eng" llm
      = Except.ok
          [(Sum.inl [errorRecord "alice" ("Error analyzing alice: " ++ e)], some "alice"),
           (Sum.inl [errorRecord "alice" ("Error analyzing alice: " ++ e),
                     successRecord "bob" raw], some "bob"),
           (Sum.inr { jd_name := "backend_eng",
                      results := [errorRecord "alice" ("Error analyzing alice: " ++ e),
                                  successRecord "bob" raw],
                      statistics :=
                        calcStatistics
                          [errorRecord "alice" ("Error analyzing alice: " ++ e),
                           successRecord "bob" raw] }, none)] ∧
    (errorRecord "alice" ("Error analyzing alice: " ++ e)).candidate_name = "Unknown" ∧
    (errorRecord "alice" ("Error analyzing alice: " ++ e)).matched = false ∧
    (errorRecord "alice" ("Error analyzing alice: " ++ e)).status = RecordStatus.error ∧
    (successRecord "bob" raw).status = RecordStatus.success ∧
    (calcStatistics [errorRecord "alice" ("Error analyzing alice: " ++ e),
                     successRecord "bob" raw]).total_analyzed = 2 ∧
    (calcStatistics [errorRecord "alice" ("Error analyzing alice: " ++ e),
                     successRecord "bob" raw]).total_errors = 1 ∧
    (calcStatistics [errorRecord "alice" ("Error analyzing alice: " ++ e),
                     successRecord "bob" raw]).total_successful = 1 := by
  have hra : recordFor llm ja (twoCandidateCache ja ca cb) "alice"
      = errorRecord "alice" ("Error analyzing alice: " ++ e) := by
    simp [recordFor, getResume, twoCandidateCache, lookupStr, hca, analyzeResume, ha,
      Except.map]
  have hrb : recordFor llm ja (twoCandidateCache ja ca cb) "bob"
      = successRecord "bob" raw := by
    simp [recordFor, getResume, twoCandidateCache, lookupStr, hcb, analyzeResume, hb,
      Except.map, successRecord]
  simp only [twoCandidateCache] at hra hrb
  refine ⟨?_, rfl, rfl, rfl, rfl, ?_, ?_, ?_⟩
  · simp [analyzeJd, twoCandidateCache, getJd, lookupStr, hja, loopRun, hra, hrb]
  · simp [calcStatistics, errorRecord, successRecord]
  · simp [calcStatistics, errorRecord, successRecord]
  · simp [calcStatistics, errorRecord, successRecord]

theorem per_candidate_failure_isolation_witness :
    ((fun _ r => if r = "alice cv" then Except.error "timeout"
        else Except.ok "good match") : String → String → Except String String)
        "python jd" "alice cv" = Except.error "timeout" ∧
    analyzeJd (twoCandidateCache "python jd" "alice cv" "bob cv") "backend_eng"
        (fun _ r => if r = "alice cv" then Except.error "timeout"
          else Except.ok "good match")
      = Except.ok
          [(Sum.inl [errorRecord "alice" "Error analyzing alice: timeout"], some "alice"),
           (Sum.inl [errorRecord "alice" "Error analyzing alice: timeout",
                     successRecord "bob" "good match"], some "bob"),
           (Sum.inr { jd_name := "backend_eng",
                      results := [errorRecord "alice" "Error analyzing alice: timeout",
                                  successRecord "bob" "good match"],
                      statistics :=
                        calcStatistics
                          [errorRecord "alice" "Error analyzing alice: timeout",
                           successRecord "bob" "good match"] }, none)] ∧
    (calcStatistics [errorRecord "alice" "Error analyzing alice: timeout",
                     successRecord "bob" "good match"]).total_analyzed = 2 ∧
    (calcStatistics [errorRecord "alice" "Error analyzing alice: timeout",
                     successRecord "bob" "good match"]).total_errors = 1 ∧
    (calcStatistics [errorRecord "alice" "Error analyzing alice: timeout",
                     successRecord "bob" "good match"]).total_successful = 1 := by
  have h := per_candidate_failure_isolation "python jd" "alice cv" "bob cv"
    "timeout" "good match"
    (fun _ r => if r = "alice cv" then Except.error "timeout"
      else Except.ok "good match")
    (by decide) (by decide) (by decide) rfl rfl
  exact ⟨rfl, h.1, h.2.2.2.2.2.1, h.2.2.2.2.2.2.1, h.2.2.2.2.2.2.2⟩

/-- C10: within a category, PDF files load before text files, so when a
.pdf and a .txt share a stem and both yield non-empty stripped content,
the cached text for that stem is the text file's content, after initial
load and after every refresh. -/
theorem txt_overwrites_pdf (f g : Folder) (old : Cache) (n vp vt : String)
    (hp : (n, vp) ∈ f.pdfs) (ht : (n, vt) ∈ f.txts)
    (hvp : strTrim vp ≠ "") (hvt : strTrim vt ≠ "")
    (hnd : (f.txts.map Prod.fst).Nodup) :
    lookupStr (loadFiles f) n = some (strTrim vt) ∧
    lookupStr ((initCache f g).jds) n = some (strTrim vt) ∧
    lookupStr ((refreshCache old f g).jds) n = some (strTrim vt) ∧
    lookupStr ((initCache g f).resumes) n = some (strTrim vt) := by
  have h : lookupStr (loadFiles f) n = some (strTrim vt) :=
    lookup_foldl_mem f.txts n vt ht hvt hnd _
  exact ⟨h, h, h, h⟩

theorem txt_overwrites_pdf_witness :
    lookupStr
      (loadFiles { pdfs := [("x", " pdf body ")], txts := [("x", " txt body ")] }) "x"
      = some "txt body" := by
  have h := (txt_overwrites_pdf
    { pdfs := [("x", " pdf body ")], txts := [("x", " txt body ")] }
    { pdfs := [], txts := [] } { jds := [], resumes := [] }
    "x" " pdf body " " txt body "
    (by decide) (by decide) (by decide) (by decide) (by decide)).1
  exact h

end RA
